import Mathlib

/-!
# Verification of the budget-verifier reconciliation program

Shallow embedding of `src/main.go` (package `main` of the budget-verifier
repository).  Go values are modelled as follows:

* `time.Time` values produced by this program always come from
  `time.Parse("01/02/2006", s)`, i.e. they are UTC midnights at day
  granularity.  We model a timestamp as an `Int` counting *hours* since an
  epoch (`time.Time.Sub(..).Hours()` is then exact integer subtraction and
  `AddDate(0, 0, n)` is `+ 24 * n`).
* Go `int` amounts are modelled as `Int` (all values in play are tiny).
* The `Matching *Transaction` pointer fields are modelled as an explicit
  match table: for each collection, a map from index to the matched index in
  the other collection (`none` = nil pointer).  This is faithful because the
  Go code only ever reads and writes the `Matching` fields of the two slices
  at hand.
* The Go standard library regexp engine is an external collaborator; it is
  modelled as an abstract `RegexEngine : String → String → Except String Bool`
  (`regexp.MatchString` returns `(false, err)` on a compile error, which the
  model's `matchRes` reproduces).
-/

set_option maxRecDepth 100000

namespace BudgetVerifier

/-- Model of the Go struct `Transaction` (without the `Matching` pointer,
which lives in the separate match table). `Timestamp` is in hours. -/
structure Transaction where
  Timestamp : Int
  Description : String
  Details : String
  Amount : Int
deriving DecidableEq, Repr, Inhabited

/-- Model of the Go struct `Filter`. -/
structure Filter where
  FilterRegex : String
  MinAmount : Int
  MaxAmount : Int
deriving DecidableEq, Repr, Inhabited

/-- Abstract model of the Go `regexp` package: given a pattern and a string,
either report whether the pattern matches the string, or report a
compilation error (as `regexp.MatchString` does). -/
def RegexEngine : Type := String → String → Except String Bool

/-- Model of the expression `match, _ := regexp.MatchString(pattern, s)` in
`isFiltered` (src/main.go line 321): the error is discarded, so a failed
compilation yields `false`. -/
def matchRes (engine : RegexEngine) (pattern s : String) : Bool :=
  match engine pattern s with
  | .ok b => b
  | .error _ => false

/-- Model of `isFiltered` (src/main.go lines 319-328): the loop returns
`true` at the first filter whose regex matches the description and whose
inclusive amount bounds contain the amount; otherwise `false`. -/
def isFiltered (engine : RegexEngine) (t : Transaction) (filters : List Filter) : Bool :=
  filters.any fun f =>
    matchRes engine f.FilterRegex t.Description
      && decide (f.MinAmount ≤ t.Amount) && decide (t.Amount ≤ f.MaxAmount)

/-- Model of the global `var dateMatchRangeDays = 7` (src/main.go line 48);
nothing in the program ever reassigns it. -/
def dateMatchRangeDays : Int := 7

/-- Numeric value of a list of decimal digit characters. -/
def digitsToNat (cs : List Char) : Nat :=
  cs.foldl (fun acc c => acc * 10 + (c.toNat - 48)) 0

/-- All characters are decimal digits. -/
def allDigits (cs : List Char) : Bool :=
  cs.all (·.isDigit)

/-- Exact rational value of a plain decimal numeral
(`[+|-] digits [. digits]`, at least one digit), the decimal grammar that
this program's currency fields use.  `none` models a
`strconv.ParseFloat` error.  (Go's full numeral grammar also has exponent,
hex-float and infinity forms, which never denote currency amounts and are
not modelled.) -/
def parseDecimal (s : String) : Option ℚ :=
  let cs := s.toList
  let signAndBody : ℚ × List Char :=
    match cs with
    | '-' :: rest => (-1, rest)
    | '+' :: rest => (1, rest)
    | _ => (1, cs)
  let sign := signAndBody.1
  let body := signAndBody.2
  let intPart := body.takeWhile (· ≠ '.')
  let restPart := body.dropWhile (· ≠ '.')
  match restPart with
  | [] =>
      if intPart ≠ [] ∧ allDigits intPart then
        some (sign * (digitsToNat intPart : ℚ))
      else none
  | _ :: frac =>
      if (intPart ≠ [] ∨ frac ≠ []) ∧ allDigits intPart ∧ allDigits frac then
        some (sign * (((digitsToNat intPart : ℚ) * 10 ^ frac.length + (digitsToNat frac : ℚ))
          / 10 ^ frac.length))
      else none

/-- Fuel-based search for the binade of `x` (`x ≥ 1` case): returns `e`
with `2 ^ e ≤ x < 2 ^ (e + 1)`, maintaining `t = 2 ^ e`. -/
def log2Up (x : ℚ) : Nat → ℚ → Int → Int
  | 0, _, e => e
  | fuel + 1, t, e => if x < 2 * t then e else log2Up x fuel (2 * t) (e + 1)

/-- Fuel-based search for the binade of `x` (`0 < x < 1` case). -/
def log2Down (x : ℚ) : Nat → ℚ → Int → Int
  | 0, _, e => e
  | fuel + 1, t, e => if t ≤ x then e else log2Down x fuel (t / 2) (e - 1)

/-- `⌊log₂ x⌋` for positive `x` (the fuel of 1200 covers the whole finite
binary64 range and far beyond). -/
def floorLog2 (x : ℚ) : Int :=
  if 1 ≤ x then log2Up x 1200 1 0 else log2Down x 1200 1 0

/-- `2 ^ k` as a rational, for integer `k`. -/
def qpow2 (k : Int) : ℚ :=
  if 0 ≤ k then ((2 : ℚ) ^ k.toNat) else 1 / ((2 : ℚ) ^ (-k).toNat)

/-- Round a rational to the nearest integer, ties to even. -/
def rne (q : ℚ) : Int :=
  let f := ⌊q⌋
  let r := q - (f : ℚ)
  if r < 1 / 2 then f
  else if 1 / 2 < r then f + 1
  else if f % 2 = 0 then f else f + 1

/-- Correct rounding of a rational to IEEE-754 binary64 (round to nearest,
ties to even), returned as the exact rational the resulting double denotes.
Subnormal quantization below exponent -1022 is included; overflow to
infinity is not modelled (every value in this development is far below the
overflow threshold).  This models both `strconv.ParseFloat`'s conversion of
a decimal numeral and the rounding of the runtime product `a * 100`. -/
def roundB64 (q : ℚ) : ℚ :=
  if q = 0 then 0
  else
    let x := |q|
    let e := max (floorLog2 x) (-1022)
    let quantum := qpow2 (e - 52)
    let m := rne (x / quantum)
    (if q < 0 then -1 else 1) * ((m : ℚ) * quantum)

/-- Truncation toward zero: the Go conversion `(int)(f)` applied to the
exact value of a finite double. -/
def truncQ (q : ℚ) : Int :=
  if 0 ≤ q then ⌊q⌋ else ⌈q⌉

/-- The double returned by `strconv.ParseFloat(s, 64)` (as an exact
rational), for the plain decimal numerals of this program. -/
def goParseFloat (s : String) : Option ℚ :=
  (parseDecimal s).map roundB64

/-- `strings.Replace(s, ",", "", -1)` (src/main.go line 199). -/
def stripCommas (s : String) : String :=
  ⟨s.toList.filter (· ≠ ',')⟩

/-- The integer cents the program stores: `(int)(a * 100)` where `a` is the
double from `ParseFloat` — the product is rounded to a double and then
truncated toward zero (src/main.go line 213). -/
def goCents (a : ℚ) : Int :=
  truncQ (roundB64 (a * 100))

/-- Gregorian leap year. -/
def isLeap (y : Nat) : Bool :=
  y % 4 = 0 && (y % 100 != 0 || y % 400 = 0)

/-- Days in a month (1-12) of year `y`. -/
def daysInMonth (y m : Nat) : Nat :=
  if m = 2 then (if isLeap y then 29 else 28)
  else if m = 4 ∨ m = 6 ∨ m = 9 ∨ m = 11 then 30 else 31

/-- Day number of the Gregorian date `y-m-d` relative to 1970-01-01
(Hinnant's days-from-civil algorithm).  `time.Parse("01/02/2006", ·)`
yields UTC midnight of the parsed date, so its timestamp in hours is
`24 * civilDays`. -/
def civilDays (y : Int) (m d : Nat) : Int :=
  let y2 := if m ≤ 2 then y - 1 else y
  let era := Int.fdiv y2 400
  let yoe := (y2 - era * 400).toNat
  let mp := if 2 < m then m - 3 else m + 9
  let doy := (153 * mp + 2) / 5 + d - 1
  let doe := yoe * 365 + yoe / 4 - yoe / 100 + doy
  era * 146097 + (doe : Int) - 719468

/-- Model of `time.Parse("01/02/2006", s)` (src/main.go lines 193-194):
exactly two month digits, two day digits and four year digits separated by
slashes, with month and day-of-month range validation; the result is the
timestamp in hours.  `none` models a parse error. -/
def parseGoDate (s : String) : Option Int :=
  match s.toList with
  | [m1, m2, s1, d1, d2, s2, y1, y2, y3, y4] =>
      if s1 = '/' ∧ s2 = '/' ∧ allDigits [m1, m2, d1, d2, y1, y2, y3, y4] then
        let m := digitsToNat [m1, m2]
        let d := digitsToNat [d1, d2]
        let y := digitsToNat [y1, y2, y3, y4]
        if 1 ≤ m ∧ m ≤ 12 ∧ 1 ≤ d ∧ d ≤ daysInMonth y m then
          some (24 * civilDays (y : Int) m d)
        else none
      else none
  | _ => none

/-- Go slice indexing `record[i]`: `none` models the index-out-of-range
panic. -/
def getField (record : List String) (i : Int) : Option String :=
  if 0 ≤ i ∧ i.toNat < record.length then some (record.getD i.toNat "") else none

/-- Model of `parseTransaction` (src/main.go lines 192-217).  The outer
`Option` is `none` when the Go code panics (index out of range); the inner
`Except` is the function's `(Transaction, error)` result.  Field accesses
happen in the evaluation order of the Go code: timestamp, then amount,
then details (only when `detailsIndex > 0`), then description. -/
def parseTransaction (record : List String)
    (timestampIndex descriptionIndex amountIndex detailsIndex : Int) :
    Option (Except String Transaction) :=
  match getField record timestampIndex with
  | none => none
  | some tsField =>
    match parseGoDate tsField with
    | none => some (.error "invalid timestamp")
    | some ts =>
      match getField record amountIndex with
      | none => none
      | some amountField =>
        match goParseFloat (stripCommas amountField) with
        | none => some (.error "invalid amount")
        | some a =>
          match (if 0 < detailsIndex then getField record detailsIndex else some "") with
          | none => none
          | some det =>
            match getField record descriptionIndex with
            | none => none
            | some desc =>
              some (.ok { Timestamp := ts, Description := desc, Details := det,
                          Amount := goCents a })

/-- The per-row loop shared by `parseBankTransactions` and
`parseBudgetTransactions` (src/main.go lines 163-171 and 179-187): a row
whose `parseTransaction` returns an error is skipped, a row that panics
aborts the whole program (`none`). -/
def parseRows (ti di ai dei : Int) : List (List String) → Option (List Transaction)
  | [] => some []
  | r :: rest =>
      match parseTransaction r ti di ai dei with
      | none => none
      | some (.error _) => parseRows ti di ai dei rest
      | some (.ok t) => (parseRows ti di ai dei rest).map (t :: ·)

/-- The header test of `parseBankTransactions` (src/main.go line 150):
`len(record) > 3 && record[0] == "Date" && record[1] == "Description" &&
record[2] == "Amount"`. -/
def isHeaderRow (r : List String) : Bool :=
  decide (3 < r.length) && (r.getD 0 "" == "Date") && (r.getD 1 "" == "Description")
    && (r.getD 2 "" == "Amount")

/-- The header scan of `parseBankTransactions` (src/main.go lines 148-155):
`start` is overwritten at every header row (there is no `break`), so the
scan yields two past the *last* header row, or `none` (`start < 0`) when no
row passes the test. -/
def findStart (records : List (List String)) : Option Nat :=
  records.enum.foldl (fun acc p => if isHeaderRow p.2 then some (p.1 + 2) else acc) none

/-- Model of `parseBankTransactions` (src/main.go lines 146-174): outer
`Option` is `none` on a panic, inner `Except` is the `(txs, error)`
result. -/
def parseBankTransactions (records : List (List String)) :
    Option (Except String (List Transaction)) :=
  match findStart records with
  | none => some (.error "failed to find start of useful records")
  | some s => (parseRows 0 1 2 (-1) (records.drop s)).map .ok

/-- Model of `parseBudgetTransactions` (src/main.go lines 176-190). -/
def parseBudgetTransactions (records : List (List String)) :
    Option (Except String (List Transaction)) :=
  (parseRows 0 2 4 3 (records.drop 1)).map .ok

/-- A JSON value, as far as the filter file needs (numbers in the filter
file are integer cent amounts). -/
inductive Json where
  | str (s : String)
  | int (n : Int)
  | bool (b : Bool)
  | null
  | arr (xs : List Json)
  | obj (fields : List (String × Json))

/-- `encoding/json` unmarshalling of one `Filter` struct: object fields are
applied in order to the zero value (unknown keys ignored, later duplicates
overwrite), a type mismatch is an error, `null` leaves the zero value. -/
def decodeFilter : Json → Except String Filter
  | .obj fields =>
      fields.foldlM (fun (acc : Filter) p =>
        match p with
        | ("regex", .str s) => .ok { acc with FilterRegex := s }
        | ("regex", _) => .error "cannot unmarshal filter regex"
        | ("min", .int n) => .ok { acc with MinAmount := n }
        | ("min", _) => .error "cannot unmarshal filter min"
        | ("max", .int n) => .ok { acc with MaxAmount := n }
        | ("max", _) => .error "cannot unmarshal filter max"
        | _ => .ok acc) ⟨"", 0, 0⟩
  | .null => .ok ⟨"", 0, 0⟩
  | _ => .error "cannot unmarshal Filter"

/-- `encoding/json` unmarshalling of `[]Filter`. -/
def decodeFilters : Json → Except String (List Filter)
  | .arr xs => xs.mapM decodeFilter
  | .null => .ok []
  | _ => .error "cannot unmarshal filter list"

/-- Model of `loadFilters` (src/main.go lines 298-317).  Its input is the
filter file's content as decoded JSON (`none` models an unreadable file,
whose `ReadFile` error is returned).  After a successful unmarshal the
function only logs and returns the filters: no field of any filter — in
particular no regex pattern — is inspected or validated. -/
def loadFilters (input : Option Json) : Except String (List Filter) :=
  match input with
  | none => .error "failed to read filter file"
  | some j =>
      match decodeFilters j with
      | .ok fs => .ok fs
      | .error e => .error ("failed to unmarshal filter file: " ++ e)

/-- State of the matching pass of `compareTransactions`: the two match
tables (model of the `Matching` pointers of the bank and budget slices) and
the accumulated `missingTransactions` list. -/
structure MatchState where
  bankMatch : Nat → Option Nat
  budgetMatch : Nat → Option Nat
  missing : List Transaction

/-- Initial state: all `Matching` fields nil, empty missing list. -/
def startState : MatchState :=
  { bankMatch := fun _ => none, budgetMatch := fun _ => none, missing := [] }

/-- `bankT.Timestamp.Sub(budget[j].Timestamp).Hours()` (src/main.go line
256), exact for the day-granularity timestamps this program produces. -/
def delta (bankT : Transaction) (budget : List Transaction) (j : Nat) : Int :=
  bankT.Timestamp - (budget.getD j default).Timestamp

/-- Model of the `potentialMatches` collection loop (src/main.go lines
232-245): budget indices, in input order, with equal amount and nil
`Matching` field. -/
def potentialMatches (bankT : Transaction) (budget : List Transaction)
    (budgetMatch : Nat → Option Nat) : List Nat :=
  (List.range budget.length).filter fun j =>
    decide (bankT.Amount = (budget.getD j default).Amount) && (budgetMatch j).isNone

/-- One iteration of the closest-match loop (src/main.go lines 254-265):
the accumulator is `(closest, closestDuration)`, initially `(nil, 99999.0)`. -/
def pcStep (bankT : Transaction) (budget : List Transaction)
    (acc : Option Nat × Int) (j : Nat) : Option Nat × Int :=
  let d := delta bankT budget j
  if 0 ≤ d ∧ d < acc.2 then (some j, d) else acc

/-- The complete closest-match selection loop of `compareTransactions`. -/
def pickClosest (bankT : Transaction) (budget : List Transaction)
    (pm : List Nat) : Option Nat × Int :=
  pm.foldl (pcStep bankT budget) (none, 99999)

/-- The range-acceptance test of `compareTransactions` (src/main.go lines
269-271): `closest.Timestamp.Before(bankT.AddDate(0,0,dateMatchRangeDays))`
and `closest.Timestamp.After(bankT.AddDate(0,0,-dateMatchRangeDays))` —
both `Before` and `After` are strict comparisons. -/
def inWindow (bankT cT : Transaction) : Prop :=
  cT.Timestamp < bankT.Timestamp + 24 * dateMatchRangeDays ∧
  bankT.Timestamp - 24 * dateMatchRangeDays < cT.Timestamp

instance (b c : Transaction) : Decidable (inWindow b c) :=
  decidable_of_iff (c.Timestamp < b.Timestamp + 24 * dateMatchRangeDays ∧
    b.Timestamp - 24 * dateMatchRangeDays < c.Timestamp) Iff.rfl

/-- The match-commit part of one iteration of the main loop (src/main.go
lines 232-276): build the candidate pool, select the closest candidate,
and on passing the range test set the two symmetric `Matching` links. -/
def commitPhase (budget : List Transaction) (st : MatchState)
    (bankIndex : Nat) (bankT : Transaction) : MatchState :=
  match (pickClosest bankT budget (potentialMatches bankT budget st.budgetMatch)).1 with
  | some j =>
      if inWindow bankT (budget.getD j default) then
        { st with
          bankMatch := fun i => if i = bankIndex then some j else st.bankMatch i,
          budgetMatch := fun k => if k = j then some bankIndex else st.budgetMatch k }
      else st
  | none => st

/-- The missing-list append at the end of one iteration (src/main.go lines
282-284). -/
def missingPhase (st : MatchState) (bankIndex : Nat) (bankT : Transaction) : MatchState :=
  if st.bankMatch bankIndex = none then
    { st with missing := st.missing ++ [bankT] }
  else st

/-- Model of one iteration of the main loop of `compareTransactions`
(src/main.go lines 222-285) for the bank transaction `bankT` at index
`bankIndex`: a filtered transaction is skipped entirely (`continue`),
otherwise the commit phase and then the missing-list check run. -/
def compareStep (engine : RegexEngine) (filters : List Filter)
    (budget : List Transaction) (st : MatchState)
    (bankIndex : Nat) (bankT : Transaction) : MatchState :=
  if isFiltered engine bankT filters then st
  else missingPhase (commitPhase budget st bankIndex bankT) bankIndex bankT

/-- The main loop of `compareTransactions` run over the first `n` bank
indices (in input order, as the Go `for bankIndex` loop does). -/
def compareLoop (engine : RegexEngine) (filters : List Filter)
    (bank budget : List Transaction) : Nat → MatchState
  | 0 => startState
  | n + 1 =>
      match bank[n]? with
      | some t => compareStep engine filters budget
          (compareLoop engine filters bank budget n) n t
      | none => compareLoop engine filters bank budget n

/-- Model of `compareTransactions` (src/main.go lines 219-296): the final
state after processing every bank transaction.  The Go function returns
`finalState.missing` (and `nil` error, unconditionally). -/
def finalState (engine : RegexEngine) (filters : List Filter)
    (bank budget : List Transaction) : MatchState :=
  compareLoop engine filters bank budget bank.length

/-- The list returned by `compareTransactions`. -/
def compareTransactions (engine : RegexEngine) (filters : List Filter)
    (bank budget : List Transaction) : List Transaction :=
  (finalState engine filters bank budget).missing

/-- The match tables form a symmetric relation. -/
def SymOK (st : MatchState) : Prop :=
  (∀ i j, st.bankMatch i = some j → st.budgetMatch j = some i) ∧
  (∀ j i, st.budgetMatch j = some i → st.bankMatch i = some j)

/-- Spec-side description of the header scan: the start index is two past
the *last* row passing the header test. -/
def bankStartSpec (records : List (List String)) : Option Nat :=
  (records.enum.reverse.find? fun p => isHeaderRow p.2).map fun p => p.1 + 2

/-- A regex engine that never matches and never errors; used for concrete
evaluations where filters play no role. -/
def noMatchEngine : RegexEngine := fun _ _ => .ok false

/-- An engine that rejects every pattern with a compile error; stands in
for `regexp` on an invalid pattern such as `"("`. -/
def errEngine : RegexEngine := fun _ _ => .error "error parsing regexp: missing closing )"

/-- The bank-records input of the C2 analysis: a three-field header row
(which the claim says qualifies, but the code's `len(record) > 3` test
skips) followed by a four-field header row, then two data rows. -/
def C2bankRecords : List (List String) :=
  [["Date", "Description", "Amount"],
   ["Date", "Description", "Amount", "Balance"],
   ["01/02/2006", "a", "1.00"],
   ["01/03/2006", "b", "2.00"]]

/-! ### Properties of the closest-candidate selection loop -/

lemma pcStep_eq (bankT : Transaction) (budget : List Transaction)
    (acc : Option Nat × Int) (j : Nat) :
    pcStep bankT budget acc j =
      if 0 ≤ delta bankT budget j ∧ delta bankT budget j < acc.2
      then (some j, delta bankT budget j) else acc := rfl

/-- Invariant of the closest-candidate fold, relative to an arbitrary
accumulator: either nothing beat the accumulator (and every eligible
candidate has delta at least the accumulated duration), or the fold returns
the first eligible candidate of minimal non-negative delta that beat it. -/
lemma pickClosest_go (bankT : Transaction) (budget : List Transaction) :
    ∀ (pm : List Nat), pm.Pairwise (· < ·) → ∀ (acc : Option Nat × Int),
      (pm.foldl (pcStep bankT budget) acc = acc ∧
        ∀ k ∈ pm, 0 ≤ delta bankT budget k → acc.2 ≤ delta bankT budget k) ∨
      (∃ j, j ∈ pm ∧ pm.foldl (pcStep bankT budget) acc = (some j, delta bankT budget j) ∧
        0 ≤ delta bankT budget j ∧ delta bankT budget j < acc.2 ∧
        (∀ k ∈ pm, 0 ≤ delta bankT budget k → delta bankT budget j ≤ delta bankT budget k) ∧
        (∀ k ∈ pm, 0 ≤ delta bankT budget k → delta bankT budget k = delta bankT budget j →
          j ≤ k)) := by
  intro pm
  induction pm with
  | nil => exact fun _ acc => Or.inl ⟨rfl, by simp⟩
  | cons p rest ih =>
    intro hpw acc
    have hlt : ∀ b ∈ rest, p < b := (List.pairwise_cons.mp hpw).1
    have hpw2 : rest.Pairwise (· < ·) := (List.pairwise_cons.mp hpw).2
    rw [List.foldl_cons]
    by_cases hc : 0 ≤ delta bankT budget p ∧ delta bankT budget p < acc.2
    · rw [pcStep_eq, if_pos hc]
      rcases ih hpw2 (some p, delta bankT budget p) with
        ⟨heq, hmin⟩ | ⟨j, hj, heq, h0, hlt2, hmin, hties⟩
      · right
        refine ⟨p, List.mem_cons_self _ _, heq, hc.1, hc.2, ?_, ?_⟩
        · intro k hk hd
          rcases List.mem_cons.mp hk with rfl | hk
          · exact le_refl _
          · exact hmin k hk hd
        · intro k hk hd _
          rcases List.mem_cons.mp hk with rfl | hk
          · exact le_refl _
          · exact le_of_lt (hlt k hk)
      · right
        refine ⟨j, List.mem_cons_of_mem _ hj, heq, h0, lt_trans hlt2 hc.2, ?_, ?_⟩
        · intro k hk hd
          rcases List.mem_cons.mp hk with rfl | hk
          · exact le_of_lt hlt2
          · exact hmin k hk hd
        · intro k hk hd heqd
          rcases List.mem_cons.mp hk with rfl | hk
          · exact absurd heqd (ne_of_lt hlt2).symm
          · exact hties k hk hd heqd
    · rw [pcStep_eq, if_neg hc]
      have hnp : 0 ≤ delta bankT budget p → acc.2 ≤ delta bankT budget p := fun h0 =>
        le_of_not_lt fun hl => hc ⟨h0, hl⟩
      rcases ih hpw2 acc with ⟨heq, hmin⟩ | ⟨j, hj, heq, h0, hlt2, hmin, hties⟩
      · left
        refine ⟨heq, ?_⟩
        intro k hk h0
        rcases List.mem_cons.mp hk with rfl | hk
        · exact hnp h0
        · exact hmin k hk h0
      · right
        refine ⟨j, List.mem_cons_of_mem _ hj, heq, h0, hlt2, ?_, ?_⟩
        · intro k hk hd
          rcases List.mem_cons.mp hk with rfl | hk
          · exact le_of_lt (lt_of_lt_of_le hlt2 (hnp hd))
          · exact hmin k hk hd
        · intro k hk hd heqd
          rcases List.mem_cons.mp hk with rfl | hk
          · exact absurd heqd (ne_of_lt (lt_of_lt_of_le hlt2 (hnp hd))).symm
          · exact hties k hk hd heqd

/-- When the closest-candidate loop selects `j`: `j` is an eligible
candidate with non-negative delta, its delta is minimal among all eligible
candidates with non-negative delta, and on ties `j` is the smallest (i.e.
first-encountered) index. -/
lemma pickClosest_spec {bankT : Transaction} {budget : List Transaction}
    {pm : List Nat} (hpw : pm.Pairwise (· < ·)) {j : Nat}
    (h : (pickClosest bankT budget pm).1 = some j) :
    j ∈ pm ∧ 0 ≤ delta bankT budget j ∧
    (∀ k ∈ pm, 0 ≤ delta bankT budget k → delta bankT budget j ≤ delta bankT budget k) ∧
    (∀ k ∈ pm, 0 ≤ delta bankT budget k → delta bankT budget k = delta bankT budget j →
      j ≤ k) := by
  unfold pickClosest at h
  rcases pickClosest_go bankT budget pm hpw (none, 99999) with
    ⟨heq, _⟩ | ⟨j2, hj2, heq, h0, _, hmin, hties⟩
  · rw [heq] at h
    cases h
  · rw [heq] at h
    cases h
    exact ⟨hj2, h0, hmin, hties⟩

/-- Membership in the candidate pool (src/main.go lines 233-244): a valid
budget index with equal amount and no prior `Matching` link. -/
lemma mem_potentialMatches {bankT : Transaction} {budget : List Transaction}
    {bm : Nat → Option Nat} {j : Nat} :
    j ∈ potentialMatches bankT budget bm ↔
      j < budget.length ∧ bankT.Amount = (budget.getD j default).Amount ∧ bm j = none := by
  simp [potentialMatches, List.mem_filter, List.mem_range, Option.isNone_iff_eq_none, and_assoc]

/-- The candidate pool lists budget indices in strictly increasing order
(the `for budgetIndex` loop runs in input order). -/
lemma potentialMatches_pairwise (bankT : Transaction) (budget : List Transaction)
    (bm : Nat → Option Nat) :
    (potentialMatches bankT budget bm).Pairwise (· < ·) :=
  (List.pairwise_lt_range _).sublist (List.filter_sublist _)

/-! ### Properties of a single main-loop iteration -/

lemma commitPhase_commit {budget : List Transaction} {st : MatchState}
    {i : Nat} {t : Transaction} {j : Nat}
    (hpc : (pickClosest t budget (potentialMatches t budget st.budgetMatch)).1 = some j)
    (hw : inWindow t (budget.getD j default)) :
    commitPhase budget st i t =
      { st with
        bankMatch := fun i2 => if i2 = i then some j else st.bankMatch i2,
        budgetMatch := fun k => if k = j then some i else st.budgetMatch k } := by
  unfold commitPhase
  rw [hpc]
  exact if_pos hw

lemma commitPhase_noCommit_some {budget : List Transaction} {st : MatchState}
    {i : Nat} {t : Transaction} {j : Nat}
    (hpc : (pickClosest t budget (potentialMatches t budget st.budgetMatch)).1 = some j)
    (hw : ¬ inWindow t (budget.getD j default)) :
    commitPhase budget st i t = st := by
  unfold commitPhase
  rw [hpc]
  exact if_neg hw

lemma commitPhase_noCommit_none {budget : List Transaction} {st : MatchState}
    {i : Nat} {t : Transaction}
    (hpc : (pickClosest t budget (potentialMatches t budget st.budgetMatch)).1 = none) :
    commitPhase budget st i t = st := by
  unfold commitPhase
  rw [hpc]

lemma commitPhase_missing (budget : List Transaction) (st : MatchState)
    (i : Nat) (t : Transaction) :
    (commitPhase budget st i t).missing = st.missing := by
  rcases hpc : (pickClosest t budget (potentialMatches t budget st.budgetMatch)).1 with _ | j
  · rw [commitPhase_noCommit_none hpc]
  · by_cases hw : inWindow t (budget.getD j default)
    · rw [commitPhase_commit hpc hw]
    · rw [commitPhase_noCommit_some hpc hw]

lemma commitPhase_bankMatch_ne {i2 i : Nat} (budget : List Transaction)
    (st : MatchState) (t : Transaction) (h : i2 ≠ i) :
    (commitPhase budget st i t).bankMatch i2 = st.bankMatch i2 := by
  rcases hpc : (pickClosest t budget (potentialMatches t budget st.budgetMatch)).1 with _ | j
  · rw [commitPhase_noCommit_none hpc]
  · by_cases hw : inWindow t (budget.getD j default)
    · rw [commitPhase_commit hpc hw]
      exact if_neg h
    · rw [commitPhase_noCommit_some hpc hw]

lemma commitPhase_budgetMatch_mono {budget : List Transaction} {st : MatchState}
    {i : Nat} {t : Transaction} {j v : Nat} (h : st.budgetMatch j = some v) :
    (commitPhase budget st i t).budgetMatch j = some v := by
  rcases hpc : (pickClosest t budget (potentialMatches t budget st.budgetMatch)).1 with _ | j2
  · rw [commitPhase_noCommit_none hpc]
    exact h
  · by_cases hw : inWindow t (budget.getD j2 default)
    · have hmem := (pickClosest_spec (potentialMatches_pairwise t budget st.budgetMatch) hpc).1
      have hnone := (mem_potentialMatches.mp hmem).2.2
      rw [commitPhase_commit hpc hw]
      have hne : j ≠ j2 := fun he => by rw [he, hnone] at h; cases h
      simpa [hne] using h
    · rw [commitPhase_noCommit_some hpc hw]
      exact h

lemma missingPhase_bankMatch (st : MatchState) (i : Nat) (t : Transaction) :
    (missingPhase st i t).bankMatch = st.bankMatch := by
  unfold missingPhase
  split <;> rfl

lemma missingPhase_budgetMatch (st : MatchState) (i : Nat) (t : Transaction) :
    (missingPhase st i t).budgetMatch = st.budgetMatch := by
  unfold missingPhase
  split <;> rfl

lemma missingPhase_missing (st : MatchState) (i : Nat) (t : Transaction) :
    (missingPhase st i t).missing =
      st.missing ++ (if st.bankMatch i = none then [t] else []) := by
  unfold missingPhase
  split <;> simp_all

lemma compareStep_filtered {engine : RegexEngine} {filters : List Filter}
    {t : Transaction} (budget : List Transaction) (st : MatchState) (i : Nat)
    (h : isFiltered engine t filters = true) :
    compareStep engine filters budget st i t = st := by
  unfold compareStep
  rw [if_pos h]

lemma compareStep_not_filtered {engine : RegexEngine} {filters : List Filter}
    {t : Transaction} (budget : List Transaction) (st : MatchState) (i : Nat)
    (h : isFiltered engine t filters = false) :
    compareStep engine filters budget st i t =
      missingPhase (commitPhase budget st i t) i t := by
  unfold compareStep
  rw [h]
  exact if_neg Bool.false_ne_true

lemma compareStep_bankMatch_ne {i2 i : Nat} (engine : RegexEngine)
    (filters : List Filter) (budget : List Transaction) (st : MatchState)
    (t : Transaction) (h : i2 ≠ i) :
    (compareStep engine filters budget st i t).bankMatch i2 = st.bankMatch i2 := by
  by_cases hf : isFiltered engine t filters
  · rw [compareStep_filtered budget st i hf]
  · rw [compareStep_not_filtered budget st i (Bool.not_eq_true _ ▸ hf), missingPhase_bankMatch]
    exact commitPhase_bankMatch_ne budget st t h

lemma compareStep_budgetMatch_mono {engine : RegexEngine} {filters : List Filter}
    {budget : List Transaction} {st : MatchState} {i : Nat} {t : Transaction}
    {j v : Nat} (h : st.budgetMatch j = some v) :
    (compareStep engine filters budget st i t).budgetMatch j = some v := by
  by_cases hf : isFiltered engine t filters
  · rw [compareStep_filtered budget st i hf]
    exact h
  · rw [compareStep_not_filtered budget st i (Bool.not_eq_true _ ▸ hf), missingPhase_budgetMatch]
    exact commitPhase_budgetMatch_mono h

/-! ### Properties of the whole main loop -/

lemma compareLoop_succ_lt {bank : List Transaction} {n : Nat}
    (engine : RegexEngine) (filters : List Filter) (budget : List Transaction)
    (hn : n < bank.length) :
    compareLoop engine filters bank budget (n + 1) =
      compareStep engine filters budget (compareLoop engine filters bank budget n) n
        (bank.getD n default) := by
  have h : bank[n]? = some (bank.getD n default) := by
    rw [List.getElem?_eq_getElem hn, List.getD_eq_getElem bank default hn]
  simp only [compareLoop]
  rw [h]

lemma compareLoop_succ_ge {bank : List Transaction} {n : Nat}
    (engine : RegexEngine) (filters : List Filter) (budget : List Transaction)
    (hn : bank.length ≤ n) :
    compareLoop engine filters bank budget (n + 1) =
      compareLoop engine filters bank budget n := by
  have h : bank[n]? = none := List.getElem?_eq_none hn
  simp only [compareLoop]
  rw [h]

/-- Only the iterations for bank indices `< n` have run, so any later index
is still unmatched. -/
lemma compareLoop_bankMatch_none (engine : RegexEngine) (filters : List Filter)
    (bank budget : List Transaction) :
    ∀ n i, n ≤ i → (compareLoop engine filters bank budget n).bankMatch i = none := by
  intro n
  induction n with
  | zero => intro i _; rfl
  | succ n ih =>
    intro i hi
    by_cases hn : n < bank.length
    · rw [compareLoop_succ_lt engine filters budget hn,
        compareStep_bankMatch_ne engine filters budget _ _ (by omega)]
      exact ih i (by omega)
    · rw [compareLoop_succ_ge engine filters budget (le_of_not_lt hn)]
      exact ih i (by omega)

/-- After iteration `i` has run, the bank-side match of index `i` never
changes again. -/
lemma compareLoop_bankMatch_stable (engine : RegexEngine) (filters : List Filter)
    (bank budget : List Transaction) (i : Nat) :
    ∀ n, i < n →
      (compareLoop engine filters bank budget n).bankMatch i =
        (compareLoop engine filters bank budget (i + 1)).bankMatch i := by
  intro n
  induction n with
  | zero => intro h; cases h
  | succ n ih =>
    intro hi
    rcases Nat.lt_succ_iff_lt_or_eq.mp hi with hi2 | rfl
    · by_cases hn : n < bank.length
      · rw [compareLoop_succ_lt engine filters budget hn,
          compareStep_bankMatch_ne engine filters budget _ _ (by omega)]
        exact ih hi2
      · rw [compareLoop_succ_ge engine filters budget (le_of_not_lt hn)]
        exact ih hi2
    · rfl

/-- A budget-side match, once set, persists through all later iterations. -/
lemma compareLoop_budgetMatch_mono (engine : RegexEngine) (filters : List Filter)
    (bank budget : List Transaction) {j v : Nat} {n n' : Nat} (hnn : n ≤ n')
    (h : (compareLoop engine filters bank budget n).budgetMatch j = some v) :
    (compareLoop engine filters bank budget n').budgetMatch j = some v := by
  induction n', hnn using Nat.le_induction with
  | base => exact h
  | succ n' _ ih =>
    by_cases hn : n' < bank.length
    · rw [compareLoop_succ_lt engine filters budget hn]
      exact compareStep_budgetMatch_mono ih
    · rw [compareLoop_succ_ge engine filters budget (le_of_not_lt hn)]
      exact ih

/-- A bank-side match, once set, persists through all later iterations. -/
lemma compareLoop_bankMatch_mono (engine : RegexEngine) (filters : List Filter)
    (bank budget : List Transaction) {i j : Nat} {n n' : Nat} (hnn : n ≤ n')
    (h : (compareLoop engine filters bank budget n).bankMatch i = some j) :
    (compareLoop engine filters bank budget n').bankMatch i = some j := by
  induction n', hnn using Nat.le_induction with
  | base => exact h
  | succ n' _ ih =>
    by_cases hn : n' < bank.length
    · rw [compareLoop_succ_lt engine filters budget hn]
      have hne : i ≠ n' := by
        intro he
        rw [he, compareLoop_bankMatch_none engine filters bank budget n' n' (le_refl n')] at ih
        cases ih
      rw [compareStep_bankMatch_ne engine filters budget _ _ hne]
      exact ih
    · rw [compareLoop_succ_ge engine filters budget (le_of_not_lt hn)]
      exact ih

lemma SymOK_missingPhase {st : MatchState} {i : Nat} {t : Transaction}
    (h : SymOK st) : SymOK (missingPhase st i t) := by
  unfold SymOK
  rw [missingPhase_bankMatch, missingPhase_budgetMatch]
  exact h

lemma compareStep_sym {engine : RegexEngine} {filters : List Filter}
    {budget : List Transaction} {st : MatchState} {i : Nat} {t : Transaction}
    (hsym : SymOK st) (hnone : st.bankMatch i = none) :
    SymOK (compareStep engine filters budget st i t) := by
  by_cases hf : isFiltered engine t filters
  · rw [compareStep_filtered budget st i hf]
    exact hsym
  · rw [compareStep_not_filtered budget st i (Bool.not_eq_true _ ▸ hf)]
    refine SymOK_missingPhase ?_
    rcases hpc : (pickClosest t budget (potentialMatches t budget st.budgetMatch)).1 with _ | j
    · rw [commitPhase_noCommit_none hpc]
      exact hsym
    · by_cases hw : inWindow t (budget.getD j default)
      · have hmem := (pickClosest_spec (potentialMatches_pairwise t budget st.budgetMatch) hpc).1
        have hbnone := (mem_potentialMatches.mp hmem).2.2
        rw [commitPhase_commit hpc hw]
        constructor
        · intro a b hab
          dsimp only at hab ⊢
          by_cases ha : a = i
          · subst ha
            rw [if_pos rfl] at hab
            cases hab
            rw [if_pos rfl]
          · rw [if_neg ha] at hab
            have h2 := hsym.1 a b hab
            have hbj : b ≠ j := by
              intro he
              rw [he, hbnone] at h2
              cases h2
            rw [if_neg hbj]
            exact h2
        · intro b a hba
          dsimp only at hba ⊢
          by_cases hb : b = j
          · subst hb
            rw [if_pos rfl] at hba
            cases hba
            rw [if_pos rfl]
          · rw [if_neg hb] at hba
            have h2 := hsym.2 b a hba
            have hai : a ≠ i := by
              intro he
              rw [he, hnone] at h2
              cases h2
            rw [if_neg hai]
            exact h2
      · rw [commitPhase_noCommit_some hpc hw]
        exact hsym

/-- The symmetry invariant holds at every point of the run. -/
lemma compareLoop_sym (engine : RegexEngine) (filters : List Filter)
    (bank budget : List Transaction) :
    ∀ n, SymOK (compareLoop engine filters bank budget n) := by
  intro n
  induction n with
  | zero => exact ⟨fun _ _ h => (by cases h), fun _ _ h => (by cases h)⟩
  | succ n ih =>
    by_cases hn : n < bank.length
    · rw [compareLoop_succ_lt engine filters budget hn]
      exact compareStep_sym ih
        (compareLoop_bankMatch_none engine filters bank budget n n (le_refl n))
    · rw [compareLoop_succ_ge engine filters budget (le_of_not_lt hn)]
      exact ih

lemma compareStep_missing (engine : RegexEngine) (filters : List Filter)
    (budget : List Transaction) (st : MatchState) (i : Nat) (t : Transaction) :
    (compareStep engine filters budget st i t).missing =
      st.missing ++
        (if (!(isFiltered engine t filters)
            && ((compareStep engine filters budget st i t).bankMatch i).isNone) = true
          then [t] else []) := by
  by_cases hf : isFiltered engine t filters
  · rw [compareStep_filtered budget st i hf]
    simp [hf]
  · have hf2 : isFiltered engine t filters = false := Bool.not_eq_true _ ▸ hf
    rw [compareStep_not_filtered budget st i hf2, missingPhase_missing, commitPhase_missing]
    congr 1
    rw [missingPhase_bankMatch, hf2]
    rcases hc : (commitPhase budget st i t).bankMatch i with _ | v <;> simp [hc]

/-- The missing-transactions accumulator after `n` iterations is exactly
the list of bank transactions at indices `< n` that are neither filtered
nor matched, in input order. -/
lemma compareLoop_missing_eq (engine : RegexEngine) (filters : List Filter)
    (bank budget : List Transaction) :
    ∀ n, n ≤ bank.length →
      (compareLoop engine filters bank budget n).missing =
        ((List.range n).filter fun i =>
          !(isFiltered engine (bank.getD i default) filters)
            && ((compareLoop engine filters bank budget n).bankMatch i).isNone).map
          (fun i => bank.getD i default) := by
  intro n
  induction n with
  | zero => simp [compareLoop, startState]
  | succ n ih =>
    intro hn
    have hlt : n < bank.length := hn
    rw [compareLoop_succ_lt engine filters budget hlt, compareStep_missing,
      ih (le_of_lt hlt), List.range_succ, List.filter_append, List.map_append]
    congr 1
    · congr 1
      apply List.filter_congr
      intro i hi
      have hi2 : i ≠ n := by
        have := List.mem_range.mp hi
        omega
      rw [compareStep_bankMatch_ne engine filters budget _ _ hi2]
    · rw [List.filter_singleton]
      rcases hc : (!(isFiltered engine (bank.getD n default) filters)
          && ((compareStep engine filters budget (compareLoop engine filters bank budget n) n
            (bank.getD n default)).bankMatch n).isNone) with _ | _
      · simp [hc]
      · simp [hc]

/-- A filtered bank transaction is skipped by its own iteration, so it is
never matched at any point of the run. -/
lemma filtered_never_matched (engine : RegexEngine) (filters : List Filter)
    (bank budget : List Transaction) {i : Nat}
    (hf : isFiltered engine (bank.getD i default) filters = true) :
    ∀ n, (compareLoop engine filters bank budget n).bankMatch i = none := by
  intro n
  induction n with
  | zero => rfl
  | succ n ih =>
    by_cases hn : n < bank.length
    · rw [compareLoop_succ_lt engine filters budget hn]
      by_cases hi : i = n
      · subst hi
        rw [compareStep_filtered budget _ i hf]
        exact ih
      · rw [compareStep_bankMatch_ne engine filters budget _ _ hi]
        exact ih
    · rw [compareLoop_succ_ge engine filters budget (le_of_not_lt hn)]
      exact ih

/-- Anatomy of a produced match: if the final state matches bank index `i`
to budget index `j`, then `i` is a real, non-filtered index, iteration `i`
selected `j` as the closest candidate (w.r.t. the budget matches consumed
before iteration `i`), and `j` passed the range-acceptance test. -/
lemma matched_extract (engine : RegexEngine) (filters : List Filter)
    (bank budget : List Transaction) {i j : Nat}
    (hm : (finalState engine filters bank budget).bankMatch i = some j) :
    i < bank.length ∧
    isFiltered engine (bank.getD i default) filters = false ∧
    (pickClosest (bank.getD i default) budget
      (potentialMatches (bank.getD i default) budget
        ((compareLoop engine filters bank budget i).budgetMatch))).1 = some j ∧
    inWindow (bank.getD i default) (budget.getD j default) := by
  have hi : i < bank.length := by
    by_contra h
    rw [finalState,
      compareLoop_bankMatch_none engine filters bank budget bank.length i (le_of_not_lt h)] at hm
    cases hm
  rw [finalState, compareLoop_bankMatch_stable engine filters bank budget i bank.length hi,
    compareLoop_succ_lt engine filters budget hi] at hm
  have hnone : (compareLoop engine filters bank budget i).bankMatch i = none :=
    compareLoop_bankMatch_none engine filters bank budget i i (le_refl i)
  by_cases hf : isFiltered engine (bank.getD i default) filters
  · rw [compareStep_filtered budget _ i hf, hnone] at hm
    cases hm
  · have hf2 : isFiltered engine (bank.getD i default) filters = false :=
      Bool.not_eq_true _ ▸ hf
    rw [compareStep_not_filtered budget _ i hf2, missingPhase_bankMatch] at hm
    rcases hpc : (pickClosest (bank.getD i default) budget
        (potentialMatches (bank.getD i default) budget
          ((compareLoop engine filters bank budget i).budgetMatch))).1 with _ | j2
    · rw [commitPhase_noCommit_none hpc, hnone] at hm
      cases hm
    · by_cases hw : inWindow (bank.getD i default) (budget.getD j2 default)
      · rw [commitPhase_commit hpc hw] at hm
        dsimp only at hm
        rw [if_pos rfl] at hm
        cases hm
        exact ⟨hi, hf2, rfl, hw⟩
      · rw [commitPhase_noCommit_some hpc hw, hnone] at hm
        cases hm

/-- If iteration `i` selects candidate `j` and `j` passes the (strict)
range test, the match is committed and survives to the final state. -/
lemma commit_final (engine : RegexEngine) (filters : List Filter)
    (bank budget : List Transaction) {i j : Nat} (hi : i < bank.length)
    (hf2 : isFiltered engine (bank.getD i default) filters = false)
    (hpc : (pickClosest (bank.getD i default) budget
      (potentialMatches (bank.getD i default) budget
        ((compareLoop engine filters bank budget i).budgetMatch))).1 = some j)
    (hw : inWindow (bank.getD i default) (budget.getD j default)) :
    (finalState engine filters bank budget).bankMatch i = some j := by
  rw [finalState, compareLoop_bankMatch_stable engine filters bank budget i bank.length hi,
    compareLoop_succ_lt engine filters budget hi,
    compareStep_not_filtered budget _ i hf2, missingPhase_bankMatch,
    commitPhase_commit hpc hw]
  dsimp only
  rw [if_pos rfl]

/-- If iteration `i` selects candidate `j` but `j` fails the (strict) range
test, bank index `i` stays unmatched for the whole run. -/
lemma reject_final (engine : RegexEngine) (filters : List Filter)
    (bank budget : List Transaction) {i j : Nat} (hi : i < bank.length)
    (hf2 : isFiltered engine (bank.getD i default) filters = false)
    (hpc : (pickClosest (bank.getD i default) budget
      (potentialMatches (bank.getD i default) budget
        ((compareLoop engine filters bank budget i).budgetMatch))).1 = some j)
    (hw : ¬ inWindow (bank.getD i default) (budget.getD j default)) :
    (finalState engine filters bank budget).bankMatch i = none := by
  rw [finalState, compareLoop_bankMatch_stable engine filters bank budget i bank.length hi,
    compareLoop_succ_lt engine filters budget hi,
    compareStep_not_filtered budget _ i hf2, missingPhase_bankMatch,
    commitPhase_noCommit_some hpc hw]
  exact compareLoop_bankMatch_none engine filters bank budget i i (le_refl i)

/-! ### Properties of the filter engine and the header scan -/

lemma isFiltered_iff_true (engine : RegexEngine) (t : Transaction) (fs : List Filter) :
    isFiltered engine t fs = true ↔
      ∃ f ∈ fs, matchRes engine f.FilterRegex t.Description = true ∧
        f.MinAmount ≤ t.Amount ∧ t.Amount ≤ f.MaxAmount := by
  simp [isFiltered, List.any_eq_true, and_assoc]

lemma isFiltered_perm (engine : RegexEngine) (t : Transaction) {fs fs2 : List Filter}
    (h : fs.Perm fs2) : isFiltered engine t fs = isFiltered engine t fs2 := by
  rw [Bool.eq_iff_iff, isFiltered_iff_true, isFiltered_iff_true]
  constructor
  · rintro ⟨f, hf, hp⟩
    exact ⟨f, h.mem_iff.mp hf, hp⟩
  · rintro ⟨f, hf, hp⟩
    exact ⟨f, h.mem_iff.mpr hf, hp⟩

lemma foldl_header_eq (l : List (Nat × List String)) : ∀ acc : Option Nat,
    l.foldl (fun acc p => if isHeaderRow p.2 then some (p.1 + 2) else acc) acc
      = match l.reverse.find? (fun p => isHeaderRow p.2) with
        | some p => some (p.1 + 2)
        | none => acc := by
  induction l with
  | nil => intro acc; rfl
  | cons p rest ih =>
    intro acc
    rw [List.foldl_cons, ih, List.reverse_cons, List.find?_append]
    cases hfind : rest.reverse.find? (fun q => isHeaderRow q.2) with
    | some q => rfl
    | none =>
      by_cases hp : isHeaderRow p.2 <;> simp [hp, List.find?]

lemma findStart_eq_spec (records : List (List String)) :
    findStart records = bankStartSpec records := by
  unfold findStart bankStartSpec
  rw [foldl_header_eq]
  cases h : records.enum.reverse.find? (fun p => isHeaderRow p.2) <;> simp [h]

lemma findStart_eq_none_iff (records : List (List String)) :
    findStart records = none ↔ ∀ r ∈ records, isHeaderRow r = false := by
  rw [findStart_eq_spec]
  unfold bankStartSpec
  rw [Option.map_eq_none']
  rw [List.find?_eq_none]
  constructor
  · intro h r hr
    have hr2 : r ∈ records.enum.map Prod.snd := by
      rw [List.enum_map_snd]
      exact hr
    rcases List.mem_map.mp hr2 with ⟨q, hq, rfl⟩
    have := h q (List.mem_reverse.mpr hq)
    revert this
    cases isHeaderRow q.2 <;> simp
  · intro h q hq
    have hq2 : q.2 ∈ records := by
      have := List.mem_map_of_mem Prod.snd (List.mem_reverse.mp hq)
      rwa [List.enum_map_snd] at this
    rw [h q.2 hq2]
    simp

/-! ### The claims -/

/-- C1, counterexample.  The claim asserts that the range-acceptance window
is inclusive at the boundary: a sole equal-amount candidate exactly
`dateMatchRangeDays` (7) days before the source's timestamp should be
accepted.  On this concrete input — one bank transaction at hour 168 and
one budget candidate at hour 0, exactly `7 * 24` hours earlier, equal
amounts, no filters — the code leaves the bank transaction unmatched and
reports it missing, because `closest.Timestamp.After(bankT.AddDate(0,0,-7))`
is a strict comparison that fails at equality. -/
theorem C1_counterexample :
    (([⟨168, "bank", "", -500⟩] : List Transaction).getD 0 default).Timestamp -
        (([⟨0, "budget", "", -500⟩] : List Transaction).getD 0 default).Timestamp
      = 24 * dateMatchRangeDays ∧
    (finalState noMatchEngine [] [⟨168, "bank", "", -500⟩] [⟨0, "budget", "", -500⟩]).bankMatch 0
      = none ∧
    compareTransactions noMatchEngine [] [⟨168, "bank", "", -500⟩] [⟨0, "budget", "", -500⟩]
      = [⟨168, "bank", "", -500⟩] := by
  refine ⟨by decide, by decide, by decide⟩

/-- C1, amended.  In the range-acceptance step, the selected best candidate
`j` is accepted (the symmetric matching links are set, and survive to the
end of the run) if and only if its timestamp lies *strictly* inside the
open window of ± `dateMatchRangeDays` (default 7) calendar days around the
source transaction's timestamp — the boundary is exclusive, so a candidate
exactly 7 days away is rejected and the source transaction remains
unmatched for the run; consequently every produced match satisfies
`|source.timestamp - candidate.timestamp| < dateMatchRangeDays` days. -/
theorem C1_range_acceptance_strict (engine : RegexEngine) (filters : List Filter)
    (bank budget : List Transaction) (i j : Nat)
    (hi : i < bank.length)
    (hf : isFiltered engine (bank.getD i default) filters = false)
    (hpc : (pickClosest (bank.getD i default) budget
      (potentialMatches (bank.getD i default) budget
        ((compareLoop engine filters bank budget i).budgetMatch))).1 = some j) :
    ((finalState engine filters bank budget).bankMatch i = some j ↔
      inWindow (bank.getD i default) (budget.getD j default)) ∧
    (¬ inWindow (bank.getD i default) (budget.getD j default) →
      (finalState engine filters bank budget).bankMatch i = none) ∧
    ((finalState engine filters bank budget).bankMatch i = some j →
      |delta (bank.getD i default) budget j| < 24 * dateMatchRangeDays) := by
  have hiff : (finalState engine filters bank budget).bankMatch i = some j ↔
      inWindow (bank.getD i default) (budget.getD j default) := by
    constructor
    · intro hm
      exact (matched_extract engine filters bank budget hm).2.2.2
    · intro hw
      exact commit_final engine filters bank budget hi hf hpc hw
  refine ⟨hiff, fun hw => reject_final engine filters bank budget hi hf hpc hw, ?_⟩
  intro hm
  have hw := hiff.mp hm
  have h0 : 0 ≤ delta (bank.getD i default) budget j :=
    (pickClosest_spec (potentialMatches_pairwise _ _ _) hpc).2.1
  rw [abs_of_nonneg h0]
  have h2 := hw.2
  simp only [delta] at h0 ⊢
  omega

/-- C1, witness for the amended theorem: a candidate 24 hours earlier (well
inside the strict window) is accepted. -/
theorem C1_range_acceptance_strict_witness :
    (0 : Nat) < ([⟨24, "bankw", "", -500⟩] : List Transaction).length ∧
    isFiltered noMatchEngine (([⟨24, "bankw", "", -500⟩] : List Transaction).getD 0 default) []
      = false ∧
    (pickClosest (([⟨24, "bankw", "", -500⟩] : List Transaction).getD 0 default)
      [⟨0, "budgetw", "", -500⟩]
      (potentialMatches (([⟨24, "bankw", "", -500⟩] : List Transaction).getD 0 default)
        [⟨0, "budgetw", "", -500⟩]
        ((compareLoop noMatchEngine [] [⟨24, "bankw", "", -500⟩]
          [⟨0, "budgetw", "", -500⟩] 0).budgetMatch))).1 = some 0 ∧
    (finalState noMatchEngine [] [⟨24, "bankw", "", -500⟩] [⟨0, "budgetw", "", -500⟩]).bankMatch 0
      = some 0 :=
  ⟨by decide, by decide, by decide,
    (C1_range_acceptance_strict noMatchEngine [] [⟨24, "bankw", "", -500⟩]
      [⟨0, "budgetw", "", -500⟩] 0 0 (by decide) (by decide) (by decide)).1.mpr (by decide)⟩

/-- C5: every produced match pairs a bank transaction with a budget
transaction of exactly equal integer cent amount, whose timestamp is on or
before the bank transaction's (`0 ≤ delta`, the delta in hours of
src/main.go line 256), and which has the smallest such non-negative delta
among all budget transactions of that exact amount not already consumed by
an earlier match (i.e. still unmatched when iteration `i` ran); a tie on
the smallest delta is broken in favour of the earliest budget-list index. -/
theorem C5_match_selection (engine : RegexEngine) (filters : List Filter)
    (bank budget : List Transaction) (i j : Nat)
    (hm : (finalState engine filters bank budget).bankMatch i = some j) :
    i < bank.length ∧ j < budget.length ∧
    (budget.getD j default).Amount = (bank.getD i default).Amount ∧
    0 ≤ delta (bank.getD i default) budget j ∧
    (∀ k, k < budget.length →
      (budget.getD k default).Amount = (bank.getD i default).Amount →
      (compareLoop engine filters bank budget i).budgetMatch k = none →
      0 ≤ delta (bank.getD i default) budget k →
      delta (bank.getD i default) budget j ≤ delta (bank.getD i default) budget k ∧
      (delta (bank.getD i default) budget k = delta (bank.getD i default) budget j →
        j ≤ k)) := by
  obtain ⟨hi, _, hpc, _⟩ := matched_extract engine filters bank budget hm
  obtain ⟨hmem, h0, hmin, hties⟩ :=
    pickClosest_spec (potentialMatches_pairwise _ _ _) hpc
  obtain ⟨hj, hamt, _⟩ := mem_potentialMatches.mp hmem
  refine ⟨hi, hj, hamt.symm, h0, ?_⟩
  intro k hk hka hkn hk0
  have hkmem : k ∈ potentialMatches (bank.getD i default) budget
      ((compareLoop engine filters bank budget i).budgetMatch) :=
    mem_potentialMatches.mpr ⟨hk, hka.symm, hkn⟩
  exact ⟨hmin k hkmem hk0, hties k hkmem hk0⟩

/-- C5, witness: the single-candidate scenario — one bank transaction at
hour 24 matched to the only budget transaction (hour 0, equal amount). -/
theorem C5_match_selection_witness :
    (finalState noMatchEngine [] [⟨24, "bankw", "", -500⟩] [⟨0, "budgetw", "", -500⟩]).bankMatch 0
      = some 0 ∧
    (0 < ([⟨24, "bankw", "", -500⟩] : List Transaction).length ∧
      0 < ([⟨0, "budgetw", "", -500⟩] : List Transaction).length ∧
      (([⟨0, "budgetw", "", -500⟩] : List Transaction).getD 0 default).Amount
        = (([⟨24, "bankw", "", -500⟩] : List Transaction).getD 0 default).Amount ∧
      0 ≤ delta (([⟨24, "bankw", "", -500⟩] : List Transaction).getD 0 default)
        [⟨0, "budgetw", "", -500⟩] 0 ∧
      (∀ k, k < ([⟨0, "budgetw", "", -500⟩] : List Transaction).length →
        (([⟨0, "budgetw", "", -500⟩] : List Transaction).getD k default).Amount
          = (([⟨24, "bankw", "", -500⟩] : List Transaction).getD 0 default).Amount →
        (compareLoop noMatchEngine [] [⟨24, "bankw", "", -500⟩]
          [⟨0, "budgetw", "", -500⟩] 0).budgetMatch k = none →
        0 ≤ delta (([⟨24, "bankw", "", -500⟩] : List Transaction).getD 0 default)
          [⟨0, "budgetw", "", -500⟩] k →
        delta (([⟨24, "bankw", "", -500⟩] : List Transaction).getD 0 default)
            [⟨0, "budgetw", "", -500⟩] 0
          ≤ delta (([⟨24, "bankw", "", -500⟩] : List Transaction).getD 0 default)
            [⟨0, "budgetw", "", -500⟩] k ∧
        (delta (([⟨24, "bankw", "", -500⟩] : List Transaction).getD 0 default)
            [⟨0, "budgetw", "", -500⟩] k
          = delta (([⟨24, "bankw", "", -500⟩] : List Transaction).getD 0 default)
            [⟨0, "budgetw", "", -500⟩] 0 → (0 : Nat) ≤ k))) :=
  ⟨by decide,
    C5_match_selection noMatchEngine [] [⟨24, "bankw", "", -500⟩]
      [⟨0, "budgetw", "", -500⟩] 0 0 (by decide)⟩

/-- C6: throughout a reconciliation run (at every iteration count `n` of
the main loop, hence in particular after `compareTransactions` returns) the
matching relation is a partial one-to-one symmetric pairing: it is
bidirectional in both directions, no budget transaction is referenced by
two bank matches or vice versa, and a `matching` reference, once set, is
never reassigned or cleared by any later iteration. -/
theorem C6_matching_invariants (engine : RegexEngine) (filters : List Filter)
    (bank budget : List Transaction) :
    (∀ n i j, (compareLoop engine filters bank budget n).bankMatch i = some j →
      (compareLoop engine filters bank budget n).budgetMatch j = some i) ∧
    (∀ n j i, (compareLoop engine filters bank budget n).budgetMatch j = some i →
      (compareLoop engine filters bank budget n).bankMatch i = some j) ∧
    (∀ n i i2 j, (compareLoop engine filters bank budget n).bankMatch i = some j →
      (compareLoop engine filters bank budget n).bankMatch i2 = some j → i = i2) ∧
    (∀ n j j2 i, (compareLoop engine filters bank budget n).budgetMatch j = some i →
      (compareLoop engine filters bank budget n).budgetMatch j2 = some i → j = j2) ∧
    (∀ n n2 i j, n ≤ n2 →
      (compareLoop engine filters bank budget n).bankMatch i = some j →
      (compareLoop engine filters bank budget n2).bankMatch i = some j) ∧
    (∀ n n2 j i, n ≤ n2 →
      (compareLoop engine filters bank budget n).budgetMatch j = some i →
      (compareLoop engine filters bank budget n2).budgetMatch j = some i) := by
  refine ⟨fun n => (compareLoop_sym engine filters bank budget n).1,
    fun n => (compareLoop_sym engine filters bank budget n).2, ?_, ?_, ?_, ?_⟩
  · intro n i i2 j h1 h2
    have b1 := (compareLoop_sym engine filters bank budget n).1 i j h1
    have b2 := (compareLoop_sym engine filters bank budget n).1 i2 j h2
    rw [b1] at b2
    cases b2
    rfl
  · intro n j j2 i h1 h2
    have b1 := (compareLoop_sym engine filters bank budget n).2 j i h1
    have b2 := (compareLoop_sym engine filters bank budget n).2 j2 i h2
    rw [b1] at b2
    cases b2
    rfl
  · intro n n2 i j h hm
    exact compareLoop_bankMatch_mono engine filters bank budget h hm
  · intro n n2 j i h hm
    exact compareLoop_budgetMatch_mono engine filters bank budget h hm

/-- C6, witness: in the single-candidate run, the match set at iteration 1
is symmetric and still present at iteration 5. -/
theorem C6_matching_invariants_witness :
    (compareLoop noMatchEngine [] [⟨24, "bankw", "", -500⟩] [⟨0, "budgetw", "", -500⟩] 1).bankMatch 0
      = some 0 ∧
    (compareLoop noMatchEngine [] [⟨24, "bankw", "", -500⟩] [⟨0, "budgetw", "", -500⟩] 5).bankMatch 0
      = some 0 :=
  ⟨by decide,
    (C6_matching_invariants noMatchEngine [] [⟨24, "bankw", "", -500⟩]
      [⟨0, "budgetw", "", -500⟩]).2.2.2.2.1 1 5 0 0 (by decide) (by decide)⟩

/-- C9: the list returned by `compareTransactions` is exactly the
non-filtered bank transactions that finished the run unmatched, listed in
their original input order — so every non-filtered source transaction
appears in exactly one of {matched, reported-missing}, and these two sets
partition the filtered source list. -/
theorem C9_missing_partition (engine : RegexEngine) (filters : List Filter)
    (bank budget : List Transaction) :
    compareTransactions engine filters bank budget =
      ((List.range bank.length).filter fun i =>
        !(isFiltered engine (bank.getD i default) filters)
          && ((finalState engine filters bank budget).bankMatch i).isNone).map
        (fun i => bank.getD i default) :=
  compareLoop_missing_eq engine filters bank budget bank.length (le_refl _)

/-- C8: a transaction is filtered out exactly when some filter rule has a
regex matching its description (all patterns assumed valid, i.e. the
engine reports no compile error on them) and an amount within the rule's
inclusive `[MinAmount, MaxAmount]` bounds; the result is invariant under
permuting the filter list; and a filtered bank transaction is excluded
before matching — it never receives a matching link in either direction and
contributes nothing to the missing-transactions output, which consists of
the non-filtered unmatched transactions only. -/
theorem C8_filter_semantics (engine : RegexEngine) (t : Transaction) (fs : List Filter)
    (hok : ∀ f ∈ fs, (engine f.FilterRegex t.Description).isOk = true) :
    (isFiltered engine t fs = true ↔
      ∃ f ∈ fs, engine f.FilterRegex t.Description = .ok true ∧
        f.MinAmount ≤ t.Amount ∧ t.Amount ≤ f.MaxAmount) ∧
    (∀ fs2, fs.Perm fs2 → isFiltered engine t fs = isFiltered engine t fs2) ∧
    (∀ bank budget i, i < bank.length → bank.getD i default = t →
      isFiltered engine t fs = true →
      (finalState engine fs bank budget).bankMatch i = none ∧
      (∀ j, (finalState engine fs bank budget).budgetMatch j ≠ some i) ∧
      compareTransactions engine fs bank budget =
        ((List.range bank.length).filter fun i2 =>
          !(isFiltered engine (bank.getD i2 default) fs)
            && ((finalState engine fs bank budget).bankMatch i2).isNone).map
          (fun i2 => bank.getD i2 default)) := by
  refine ⟨?_, fun fs2 h => isFiltered_perm engine t h, ?_⟩
  · rw [isFiltered_iff_true]
    constructor
    · rintro ⟨f, hf, hmr, hb⟩
      refine ⟨f, hf, ?_, hb⟩
      have := hok f hf
      revert hmr this
      unfold matchRes
      cases he : engine f.FilterRegex t.Description with
      | ok b => cases b <;> simp
      | error e => simp [Except.isOk]
    · rintro ⟨f, hf, hmr, hb⟩
      refine ⟨f, hf, ?_, hb⟩
      unfold matchRes
      rw [hmr]
  · intro bank budget i hi ht hfil
    have hf2 : isFiltered engine (bank.getD i default) fs = true := by rw [ht]; exact hfil
    have hnone : ∀ n, (compareLoop engine fs bank budget n).bankMatch i = none :=
      filtered_never_matched engine fs bank budget hf2
    refine ⟨hnone bank.length, ?_, ?_⟩
    · intro j hj
      have := (compareLoop_sym engine fs bank budget bank.length).2 j i hj
      rw [hnone bank.length] at this
      cases this
    · exact compareLoop_missing_eq engine fs bank budget bank.length (le_refl _)

/-- C8, witness: an always-valid engine that matches everything, one filter
with bounds `[-600, -400]`, and the amount `-500` transaction: it is
filtered, and in a run it stays unmatched and off the missing list. -/
theorem C8_filter_semantics_witness :
    (∀ f ∈ [(⟨"b.*", -600, -400⟩ : Filter)],
      ((fun _ _ => .ok true : RegexEngine) f.FilterRegex
        (Transaction.mk 24 "bankw" "" (-500)).Description).isOk = true) ∧
    (isFiltered (fun _ _ => .ok true : RegexEngine) ⟨24, "bankw", "", -500⟩
        [(⟨"b.*", -600, -400⟩ : Filter)] = true ↔
      ∃ f ∈ [(⟨"b.*", -600, -400⟩ : Filter)],
        (fun _ _ => .ok true : RegexEngine) f.FilterRegex
          (Transaction.mk 24 "bankw" "" (-500)).Description = .ok true ∧
        f.MinAmount ≤ (Transaction.mk 24 "bankw" "" (-500)).Amount ∧
        (Transaction.mk 24 "bankw" "" (-500)).Amount ≤ f.MaxAmount) :=
  ⟨by decide,
    (C8_filter_semantics (fun _ _ => .ok true) ⟨24, "bankw", "", -500⟩
      [⟨"b.*", -600, -400⟩] (by decide)).1⟩

/-- C10 (implicit): `isFiltered` is total — a filter whose pattern fails to
compile contributes `false` (the compile error of `regexp.MatchString` is
discarded), so such a rule can never cause any transaction to be excluded,
and the remaining rules are still evaluated exactly as if the bad rule
were absent. -/
theorem C10_invalid_pattern_inert (engine : RegexEngine) (t : Transaction)
    (f : Filter) (fs : List Filter) (err : String)
    (he : engine f.FilterRegex t.Description = .error err) :
    matchRes engine f.FilterRegex t.Description = false ∧
    isFiltered engine t (f :: fs) = isFiltered engine t fs := by
  have h1 : matchRes engine f.FilterRegex t.Description = false := by
    unfold matchRes
    rw [he]
  refine ⟨h1, ?_⟩
  unfold isFiltered
  rw [List.any_cons, h1]
  simp

/-- C10, witness: with an engine that reports a compile error, the bad rule
contributes `false` and the rest of the list decides the outcome. -/
theorem C10_invalid_pattern_inert_witness :
    errEngine "(" "desc" = .error "error parsing regexp: missing closing )" ∧
    (matchRes errEngine "(" "desc" = false ∧
      isFiltered errEngine ⟨0, "desc", "", -500⟩ [⟨"(", -600, -400⟩] =
        isFiltered errEngine ⟨0, "desc", "", -500⟩ []) :=
  ⟨rfl,
    C10_invalid_pattern_inert errEngine ⟨0, "desc", "", -500⟩ ⟨"(", -600, -400⟩ []
      "error parsing regexp: missing closing )" rfl⟩

/-- C7, counterexample.  The claim asserts that a filter whose pattern is
not a valid regular expression makes `loadFilters` fail.  But `loadFilters`
performs no regex validation at all — it only reads and JSON-decodes the
file — so a filter file containing the invalid pattern `"("` (rejected by
Go's `regexp` compiler with "missing closing )") loads successfully. -/
theorem C7_counterexample :
    loadFilters (some (.arr [.obj
        [("regex", .str "("), ("min", .int (-100000)), ("max", .int 0)]]))
      = .ok [⟨"(", -100000, 0⟩] := rfl

/-- C7, amended: a filter whose pattern string is not a valid regular
expression is *never* rejected: `loadFilters` accepts any pattern string
whatsoever (its only failure modes are an unreadable file and a JSON
decoding error), and during `isFiltered` a pattern-compilation error is
silently discarded per transaction (the rule merely behaves as
non-matching) — regex validity is never surfaced anywhere. -/
theorem C7_no_load_time_validation :
    (∀ (pattern : String) (mn mx : Int),
      loadFilters (some (.arr [.obj
          [("regex", .str pattern), ("min", .int mn), ("max", .int mx)]]))
        = .ok [⟨pattern, mn, mx⟩]) ∧
    (∀ (engine : RegexEngine) (p s err : String),
      engine p s = .error err → matchRes engine p s = false) := by
  constructor
  · intro pattern mn mx
    rfl
  · intro engine p s err he
    unfold matchRes
    rw [he]

/-- C7, witness for the amended theorem: the invalid pattern `"("` loads,
and an engine erroring on it yields a discarded non-match. -/
theorem C7_no_load_time_validation_witness :
    errEngine "(" "payee" = .error "error parsing regexp: missing closing )" ∧
    matchRes errEngine "(" "payee" = false :=
  ⟨rfl,
    C7_no_load_time_validation.2 errEngine "(" "payee"
      "error parsing regexp: missing closing )" rfl⟩

/-- C2, counterexample.  The claim says that parsing begins two rows past
the FIRST row whose first three fields are the header labels, and that a
row with exactly those three fields qualifies.  On `C2bankRecords` the
claim therefore predicts a start at row 2 (the first, three-field header is
at index 0) and the two transactions "a" and "b".  The code ignores the
three-field row (its test is `len(record) > 3`) and keeps overwriting
`start` (no `break`), so it starts at row 3, producing only "b". -/
theorem C2_counterexample :
    isHeaderRow ["Date", "Description", "Amount"] = false ∧
    parseBankTransactions C2bankRecords
      = some (.ok [⟨24 * civilDays 2006 1 3, "b", "", 200⟩]) := by
  exact ⟨by decide, by with_unfolding_all rfl⟩

/-- C2, amended: `parseBankTransactions` begins parsing two rows past the
LAST row that has MORE THAN three fields and whose first three fields equal
"Date", "Description", "Amount" (a row with exactly those three fields does
not qualify), and it fails with the format error if and only if no such
row exists anywhere in the input; rows before the start point are never
parsed as transactions. -/
theorem C2_last_header_scan (records : List (List String)) :
    (parseBankTransactions records =
      match bankStartSpec records with
      | none => some (.error "failed to find start of useful records")
      | some s => (parseRows 0 1 2 (-1) (records.drop s)).map .ok) ∧
    (parseBankTransactions records = some (.error "failed to find start of useful records") ↔
      ∀ r ∈ records, isHeaderRow r = false) := by
  have h := findStart_eq_spec records
  constructor
  · unfold parseBankTransactions
    rw [h]
  · have h2 : parseBankTransactions records
        = some (.error "failed to find start of useful records") ↔
        findStart records = none := by
      unfold parseBankTransactions
      cases hf : findStart records with
      | none => simp
      | some s =>
        constructor
        · intro hx
          dsimp only at hx
          rcases hp : parseRows 0 1 2 (-1) (records.drop s) with _ | l <;>
            rw [hp] at hx <;> simp at hx
        · intro hx
          cases hx
    rw [h2]
    exact findStart_eq_none_iff records

/-- C2, witness for the amended theorem, instantiated on `C2bankRecords`:
the spec-side scan finds the last qualifying header at index 1, so the
start index is 3. -/
theorem C2_last_header_scan_witness :
    (parseBankTransactions C2bankRecords =
      match bankStartSpec C2bankRecords with
      | none => some (.error "failed to find start of useful records")
      | some s => (parseRows 0 1 2 (-1) (C2bankRecords.drop s)).map .ok) ∧
    bankStartSpec C2bankRecords = some 3 :=
  ⟨(C2_last_header_scan C2bankRecords).1, by with_unfolding_all rfl⟩

/-- C3: the claim requires `Amount = round(v * 100)` in integer cents with
no silent truncation of fractional cents.  The code computes
`(int)(a * 100)` where `a` is the binary64 double nearest to the decimal
value, and the conversion truncates toward zero.  For the amount text
"4.35" (exact value 87/20, so the claim requires `round(435) = 435` cents)
the double product `a * 100` is 434.99999999999994…, and the code stores
434 cents — one cent is silently lost, as the spec's design notes (§9) warn. -/
theorem C3_float_truncation_loses_cents :
    parseDecimal "4.35" = some (87 / 20) ∧
    round ((87 : ℚ) / 20 * 100) = 435 ∧
    (goParseFloat "4.35").map goCents = some 434 ∧
    parseTransaction ["01/02/2006", "coffee", "4.35"] 0 1 2 (-1)
      = some (.ok ⟨24 * civilDays 2006 1 2, "coffee", "", 434⟩) := by
  refine ⟨by with_unfolding_all rfl, ?_, by with_unfolding_all rfl, by with_unfolding_all rfl⟩
  have h : (87 : ℚ) / 20 * 100 = 435 := by norm_num
  rw [h]
  norm_num

/-- C4: the claim says `parseTransaction` returns an error value for every
possible row, including rows shorter than the required column indices, so
that the enclosing loop can skip it.  Bad dates and bad amounts are indeed
returned as error values (last two conjuncts), but a row too short for a
column index makes the Go code panic with an index-out-of-range
(`record[amountIndex]` with `amountIndex = 4` on a three-field budget row),
aborting the whole program instead of skipping the row (first two
conjuncts; `none` is the model's panic value, and it propagates through
`parseBudgetTransactions`). -/
theorem C4_short_row_panics :
    parseTransaction ["01/02/2006", "x", "y"] 0 2 4 3 = none ∧
    parseBudgetTransactions [["Date", "Outflow", "Category", "Memo", "Amount"],
      ["01/02/2006", "x", "y"]] = none ∧
    parseTransaction ["baddate", "desc", "1.00"] 0 1 2 (-1)
      = some (.error "invalid timestamp") ∧
    parseTransaction ["01/02/2006", "desc", "nonnumeric"] 0 1 2 (-1)
      = some (.error "invalid amount") := by
  refine ⟨by with_unfolding_all rfl, by with_unfolding_all rfl,
    by with_unfolding_all rfl, by with_unfolding_all rfl⟩

end BudgetVerifier
